import Mathlib

/-! Shallow embedding of markdownkit's `TextProcessor` (src/text-processor.js) and of the
legacy `AutoFormatter` plugin registration, used to settle the specification's claims
about the rule-application engine.

Strings are modelled as `List Char` (Unicode code points); the JavaScript string
primitives used by the source (`trim`, `split('\n')`, `startsWith`, `repeat`, and the
concrete regular expressions appearing in the rule table) are embedded as executable
Lean functions, specialised to those concrete patterns.  Character classes are the
ASCII classes the source's patterns use; case mapping is ASCII.  `String`-level
wrappers expose the same entry points as the source (`detectStructure`,
`basicCleanup`, `cleanup`, `processSync`, `applyNLP`). -/

/-- Code points of JavaScript's `\s` class, as used by `trim`, by `\s` in the rule
patterns, and by blank-line tests. -/
def wsChars : List Char :=
  [' ', '\t', '\n', '\r', Char.ofNat 11, Char.ofNat 12,
   Char.ofNat 160, Char.ofNat 0x1680,
   Char.ofNat 0x2000, Char.ofNat 0x2001, Char.ofNat 0x2002, Char.ofNat 0x2003,
   Char.ofNat 0x2004, Char.ofNat 0x2005, Char.ofNat 0x2006, Char.ofNat 0x2007,
   Char.ofNat 0x2008, Char.ofNat 0x2009, Char.ofNat 0x200A,
   Char.ofNat 0x2028, Char.ofNat 0x2029, Char.ofNat 0x202F,
   Char.ofNat 0x205F, Char.ofNat 0x3000, Char.ofNat 0xFEFF]

/-- Whitespace test (JavaScript `\s`). -/
def isWs (c : Char) : Bool := wsChars.contains c

/-- The backquote character (code point 96), written via `Char.ofNat`. -/
def bq : Char := Char.ofNat 96

/-- The double-quote character (code point 34). -/
def dq : Char := Char.ofNat 34

/-- The single-quote character (code point 39). -/
def sqc : Char := Char.ofNat 39

/-- JavaScript `String.prototype.trim`: strip whitespace from both ends. -/
def jsTrim (l : List Char) : List Char :=
  ((l.dropWhile isWs).reverse.dropWhile isWs).reverse

/-- JavaScript `String.prototype.trimEnd`: strip trailing whitespace. -/
def trimEndL (l : List Char) : List Char :=
  (l.reverse.dropWhile isWs).reverse

/-- JavaScript `text.split('\n')`: split into lines, preserving empty parts. -/
def splitNl : List Char → List (List Char)
  | [] => [[]]
  | c :: rest =>
    if c == '\n' then [] :: splitNl rest
    else
      match splitNl rest with
      | w :: ws => (c :: w) :: ws
      | [] => [[c]]

/-- JavaScript `lines.join('\n')`. -/
def joinNl : List (List Char) → List Char
  | [] => []
  | [l] => l
  | l :: l2 :: ls => l ++ '\n' :: joinNl (l2 :: ls)

/-- Does the string start with the given character? -/
def headIs (l : List Char) (c : Char) : Bool :=
  match l with
  | d :: _ => d == c
  | [] => false

/-- `trimmed.startsWith('#')`. -/
def startsHash (l : List Char) : Bool := headIs l '#'

/-- `trimmed.startsWith('-')`. -/
def startsDash (l : List Char) : Bool := headIs l '-'

/-- `trimmed.startsWith('*')`. -/
def startsStar (l : List Char) : Bool := headIs l '*'

/-- `trimmed.startsWith('>')`. -/
def startsGt (l : List Char) : Bool := headIs l '>'

/-- `trimmed.startsWith('|')`. -/
def startsPipe (l : List Char) : Bool := headIs l '|'

/-- `trimmed.startsWith('**')`. -/
def startsStars2 (l : List Char) : Bool := "**".data.isPrefixOf l

/-- `trimmed.startsWith('\x60\x60\x60')`: the code-fence delimiter test. -/
def startsTicks (l : List Char) : Bool := [bq, bq, bq].isPrefixOf l

/-- `trimmed.endsWith('/')`. -/
def endsSlash (l : List Char) : Bool :=
  match l.getLast? with
  | some c => c == '/'
  | none => false

/-- `trimmed.includes(' ')` (a literal space character). -/
def hasSpace (l : List Char) : Bool := l.contains ' '

/-- JavaScript `\w` class: `[A-Za-z0-9_]`. -/
def isWordChar (c : Char) : Bool := c.isAlphanum || c == '_'

/-- ECMAScript line terminators: LF, CR, LS (U+2028), PS (U+2029).  Without the
`s` flag, `.` matches any character except these (negated classes such as
`[^\n]` are unaffected). -/
def isLineTerm (c : Char) : Bool :=
  c == '\n' || c == '\r' || c == Char.ofNat 0x2028 || c == Char.ofNat 0x2029

/-- The options record of `TextProcessor` (`defaultOptions` in the source). -/
structure Options where
  nlp : Bool
  fixPronouns : Bool
  smartQuotes : Bool
  smartEllipsis : Bool
  smartDashes : Bool
  capitalizeSentences : Bool
  detectFolders : Bool
  detectLists : Bool
  detectLabels : Bool
  firstLineTitle : Bool
  headerLevel : Nat
  wrapWidth : Nat
  semanticBreaks : Bool
  preserveCodeBlocks : Bool
  collapseBlankLines : Bool
  ensurePunctuation : Bool
deriving DecidableEq, Repr

/-- The source's `defaultOptions`. -/
def defaultOptions : Options where
  nlp := true
  fixPronouns := true
  smartQuotes := true
  smartEllipsis := true
  smartDashes := true
  capitalizeSentences := true
  detectFolders := true
  detectLists := true
  detectLabels := true
  firstLineTitle := true
  headerLevel := 3
  wrapWidth := 88
  semanticBreaks := false
  preserveCodeBlocks := true
  collapseBlankLines := true
  ensurePunctuation := true

/-- `name.split(/[-_]/)` as used by `formatFolderName`. -/
def splitSeps : List Char → List (List Char)
  | [] => [[]]
  | c :: rest =>
    if c == '-' || c == '_' then [] :: splitSeps rest
    else
      match splitSeps rest with
      | w :: ws => (c :: w) :: ws
      | [] => [[c]]

/-- `word.charAt(0).toUpperCase() + word.slice(1).toLowerCase()` (ASCII case map). -/
def capWord : List Char → List Char
  | [] => []
  | c :: rest => c.toUpper :: rest.map Char.toLower

/-- `TextProcessor.formatFolderName`: kebab/snake case to Title Case. -/
def formatFolderName (name : List Char) : List Char :=
  List.intercalate [' '] ((splitSeps name).map capWord)

/-- The key-value match `/^([A-Z][a-zA-Z\s]+):\s+(.+)$/` on a (trimmed) line.
Returns the captured key and value.  `[A-Z][a-zA-Z\s]+` is a greedy run that
cannot contain `:`, so the run is maximal and must be followed directly by `:`;
`\s+(.+)$` requires at least one whitespace character after the colon, and the
greedy `\s+` yields one character back to `(.+)` when nothing else remains.
`.` cannot match a line terminator, so the value group must be free of them:
if any line terminator sits after the whitespace run, every backtracking split
leaves it inside `(.+)` and the whole match fails. -/
def labelMatch (t : List Char) : Option (List Char × List Char) :=
  match t with
  | [] => none
  | c :: rest =>
    if 'A' ≤ c && c ≤ 'Z' then
      let run := rest.takeWhile (fun d => d.isAlpha || isWs d)
      let after := rest.drop run.length
      if run.isEmpty then none
      else
        match after with
        | d :: tail =>
          if d == ':' then
            let w := tail.takeWhile isWs
            let v := tail.drop w.length
            if w.isEmpty then none
            else if v.isEmpty then
              if 2 ≤ w.length && (w.drop (w.length - 1)).all (fun d => !isLineTerm d) then
                some (c :: run, w.drop (w.length - 1))
              else none
            else if v.all (fun d => !isLineTerm d) then some (c :: run, v)
            else none
          else none
        | [] => none
    else none

/-- Head test for the emoji character class of the `emoji-section-headers` rule.
Without the `u` flag the class matches single UTF-16 units; its only members
that are complete code points are U+26A0 and U+FE0F (the astral emoji split
into surrogate halves, which no well-formed code-point sequence contains). -/
def emojiHead (c : Char) : Bool := c == Char.ofNat 0x26A0 || c == Char.ofNat 0xFE0F

/-- Match of `/^([emoji]\s+)(.+)$/` (rule `emoji-section-headers`); the transform
emits `## ` followed by the whole line, since the two groups regroup it.
The `(.+)$` group cannot contain a line terminator (`.`-semantics); when the
remainder after the greedy `\s+` is empty, the `\s+` yields back its final
character, which must then also be a non-terminator for `(.+)` to take it. -/
def emojiOk (t : List Char) : Bool :=
  match t with
  | [] => false
  | c :: rest =>
    emojiHead c &&
      (let w := rest.takeWhile isWs
       let v := rest.drop w.length
       1 ≤ w.length &&
         (if v.isEmpty then
            2 ≤ w.length && (w.drop (w.length - 1)).all (fun d => !isLineTerm d)
          else v.all (fun d => !isLineTerm d)))

/-- The priority keywords of rule `priority-labels`, in alternation order. -/
def priorityKws : List (List Char) :=
  ["IMMEDIATE".data, "HIGH PRIORITY".data, "MEDIUM PRIORITY".data, "LOW PRIORITY".data]

/-- Tail test for `/(\s*-\s*.+):$/` after the priority keyword: the first
non-whitespace character must be `-`, the line must end with `:`, and at least
one character must sit between them.  The `.+` segment cannot contain a line
terminator: the part of `mid` (between `-` and the final `:`) after the greedy
`\s*` must be terminator-free, or, when `mid` is all whitespace, the `\s*`
yields back its last character, which must then be a non-terminator. -/
def priorityTail (r0 : List Char) : Bool :=
  match r0.dropWhile isWs with
  | c :: r1 =>
    c == '-' && 2 ≤ r1.length &&
      (match r1.getLast? with
       | some d => d == ':'
       | none => false) &&
      (let mid := r1.dropLast
       let body := mid.drop (mid.takeWhile isWs).length
       if body.isEmpty then
         match mid.getLast? with
         | some d => !isLineTerm d
         | none => false
       else body.all (fun d => !isLineTerm d))
  | [] => false

/-- Keyword lookup for rule `priority-labels`. -/
def priorityFind (t : List Char) : Option (List Char) :=
  priorityKws.find? (fun k => k.isPrefixOf t)

/-- Full match test for rule `priority-labels`. -/
def priorityOk (t : List Char) : Bool :=
  match priorityFind t with
  | some k => priorityTail (t.drop k.length)
  | none => false

/-- Transform of rule `priority-labels`: `**KEYWORD**` followed by the rest of
the line (the rest regroups group 2 and the final `:`). -/
def priorityOut (t : List Char) : List Char :=
  match priorityFind t with
  | some k => "**".data ++ k ++ "**".data ++ t.drop k.length
  | none => t

/-- `kw.isPrefixOf`, returning the remainder on success (a literal regex piece). -/
def afterLit (kw l : List Char) : Option (List Char) :=
  if kw.isPrefixOf l then some (l.drop kw.length) else none

/-- `\s+`: require at least one whitespace character, return the remainder. -/
def afterWs1 (l : List Char) : Option (List Char) :=
  let w := l.takeWhile isWs
  if 1 ≤ w.length then some (l.drop w.length) else none

/-- `\w+$`: the remainder is one or more word characters. -/
def wordAll (l : List Char) : Bool := !l.isEmpty && l.all isWordChar

/-- One alternative of rule `command-inline-code`: literal keyword, `\s+`, then
exactly one of the given subcommands up to the end of the line. -/
def cmdKw (kw : List Char) (subs : List (List Char)) (t : List Char) : Bool :=
  match afterLit kw t with
  | some r =>
    match afterWs1 r with
    | some r2 => subs.any (fun s => r2 == s)
    | none => false
  | none => false

/-- Full match test of rule `command-inline-code`
(`make \w+`, `go mod \w+`, `npm|yarn|pnpm|git` with fixed subcommands). -/
def commandOk (t : List Char) : Bool :=
  (match afterLit "make".data t with
   | some r =>
     match afterWs1 r with
     | some r2 => wordAll r2
     | none => false
   | none => false) ||
  (match afterLit "go".data t with
   | some r =>
     match afterWs1 r with
     | some r2 =>
       match afterLit "mod".data r2 with
       | some r3 =>
         match afterWs1 r3 with
         | some r4 => wordAll r4
         | none => false
       | none => false
     | none => false
   | none => false) ||
  cmdKw "npm".data ["install".data, "run".data, "test".data, "build".data] t ||
  cmdKw "yarn".data ["install".data, "add".data, "test".data, "build".data] t ||
  cmdKw "pnpm".data ["install".data, "add".data, "test".data, "build".data] t ||
  cmdKw "git".data ["clone".data, "pull".data, "push".data, "commit".data] t

/-- The `STRUCTURE_RULES` fall-through of `detectStructure`: starting from the
trimmed line, the first matching rule of the array applies and iteration stops. -/
def structRun (t : List Char) : List Char :=
  if emojiOk t then '#' :: '#' :: ' ' :: t
  else if priorityOk t then priorityOut t
  else if commandOk t then bq :: (t ++ [bq])
  else t

/-- The per-document scanner state of `detectStructure`
(`inCodeBlock`, `isFirstNonEmptyLine`, `prevLineWasBlank`). -/
structure ScanState where
  inCode : Bool
  firstOpen : Bool
  prevBlank : Bool
deriving DecidableEq, Repr

/-- The state at the top of `detectStructure`'s loop. -/
def initState : ScanState := ⟨false, true, false⟩

/-- The folder-rule heading: `'#'.repeat(headerLevel)` + space + title from
`formatFolderName(trimmed.slice(0, -1))`. -/
def folderHeading (o : Options) (t : List Char) : List Char :=
  List.replicate o.headerLevel '#' ++ ' ' :: formatFolderName t.dropLast

/-- The first-line-title output `# ${trimmed}`. -/
def hashSpace (t : List Char) : List Char := '#' :: ' ' :: t

/-- The indented-list output: `'  '.repeat(max 0 (indentLevel - 1)) + '-'`
followed by a space and the content after the leading whitespace run. -/
def listItem (line : List Char) : List Char :=
  List.replicate (2 * ((line.takeWhile isWs).length / 2 - 1)) ' ' ++
    '-' :: ' ' :: line.dropWhile isWs

/-- The label-rule output `**${key}:** ${value}`. -/
def labelLine (k v : List Char) : List Char :=
  '*' :: '*' :: (k ++ ':' :: '*' :: '*' :: ' ' :: v)

/-- One iteration of the `detectStructure` loop: given the scanner state and the
raw line, the lines pushed onto `processed` and the updated state.  Mirrors the
source's branch order: fence toggle, code-block pass-through, blank handling,
folder rule, first-line-title rule, indented-list rule, key-value rule, and the
`STRUCTURE_RULES` fall-through on the trimmed line.  The indented-list guard
embeds `/^(\s{2,})(\S.*)$/`: at least two leading whitespace characters, a
nonempty remainder, and no line terminator inside the remainder, since `.`
matches none and `$` only holds at end of input. -/
def detectLine (o : Options) (st : ScanState) (line : List Char) :
    List (List Char) × ScanState :=
  if startsTicks (jsTrim line) then
    ([line], ⟨!st.inCode, st.firstOpen, false⟩)
  else if st.inCode && o.preserveCodeBlocks then
    ([line], st)
  else if (jsTrim line).isEmpty then
    if o.collapseBlankLines && st.prevBlank then ([], st)
    else ([[]], ⟨st.inCode, st.firstOpen, true⟩)
  else if o.detectFolders && endsSlash (jsTrim line) && !hasSpace (jsTrim line) then
    ([folderHeading o (jsTrim line), []], ⟨st.inCode, false, false⟩)
  else if o.firstLineTitle && st.firstOpen && !startsHash (jsTrim line) then
    ([hashSpace (jsTrim line), []], ⟨st.inCode, false, false⟩)
  else if o.detectLists && 2 ≤ (line.takeWhile isWs).length &&
      !(line.dropWhile isWs).isEmpty &&
      (line.dropWhile isWs).all (fun c => !isLineTerm c) &&
      !startsDash (jsTrim line) && !startsStar (jsTrim line) then
    ([listItem line], ⟨st.inCode, false, false⟩)
  else
    match (if o.detectLabels && !startsStars2 (jsTrim line) then labelMatch (jsTrim line) else none) with
    | some kv => ([labelLine kv.1 kv.2], ⟨st.inCode, false, false⟩)
    | none => ([structRun (jsTrim line)], ⟨st.inCode, false, false⟩)

/-- The full `detectStructure` loop over a list of lines, returning the emitted
lines and the final scanner state. -/
def detectLines (o : Options) : ScanState → List (List Char) → List (List Char) × ScanState
  | st, [] => ([], st)
  | st, l :: ls =>
    let r := detectLine o st l
    let rest := detectLines o r.2 ls
    (r.1 ++ rest.1, rest.2)

/-- `TextProcessor.detectStructure` on code points. -/
def detectL (o : Options) (text : List Char) : List Char :=
  joinNl (detectLines o initState (splitNl text)).1

/-- The `SENTENCE_ENDINGS` test `/[.!?:;]$/`. -/
def sentenceEnd (s : List Char) : Bool :=
  match s.getLast? with
  | some c => c == '.' || c == '!' || c == '?' || c == ':' || c == ';'
  | none => false

/-- `/^#+\s/`. -/
def hashWs (s : List Char) : Bool :=
  let hs := s.takeWhile (fun c => c == '#')
  1 ≤ hs.length &&
    (match s.drop hs.length with
     | c :: _ => isWs c
     | [] => false)

/-- `/^[-*+]\s/`. -/
def listMarkWs (s : List Char) : Bool :=
  match s with
  | c :: d :: _ => (c == '-' || c == '*' || c == '+') && isWs d
  | _ => false

/-- `/^\d+\.\s/`. -/
def digitsDotWs (s : List Char) : Bool :=
  let ds := s.takeWhile Char.isDigit
  1 ≤ ds.length &&
    (match s.drop ds.length with
     | c :: d :: _ => c == '.' && isWs d
     | _ => false)

/-- `/^>\s/`. -/
def gtWs (s : List Char) : Bool :=
  match s with
  | c :: d :: _ => c == '>' && isWs d
  | _ => false

/-- The `SKIP_PUNCTUATION_PATTERNS` test: true when any pattern matches. -/
def skipPunct (s : List Char) : Bool :=
  hashWs s || listMarkWs s || digitsDotWs s || gtWs s ||
    startsTicks s || startsPipe s || s == "---".data || s.all isWs ||
    (match s.getLast? with
     | some c => c == ')' || c == bq || c == dq || c == sqc
     | none => false)

/-- `TextProcessor.ensurePunctuation`: append a period when the line matches no
skip pattern and has no terminal punctuation. -/
def ensurePunctuation (s : List Char) : List Char :=
  if s.isEmpty then s
  else if skipPunct s then s
  else if sentenceEnd s then s
  else s ++ ['.']

/-- `result.charAt(0).toUpperCase() + result.slice(1)` (ASCII case map). -/
def upperFirst : List Char → List Char
  | [] => []
  | c :: rest => c.toUpper :: rest

/-- Global replacement of `/\bi\b/` by `I`: a standalone `i` with no word
character on either side.  `prev` records whether the preceding character was a
word character. -/
def fixI (prev : Bool) : List Char → List Char
  | [] => []
  | c :: rest =>
    if c == 'i' && !prev &&
        !(match rest with
          | d :: _ => isWordChar d
          | [] => false) then
      'I' :: fixI true rest
    else c :: fixI (isWordChar c) rest

/-- One line of `TextProcessor.basicCleanup`: structural lines pass through,
other lines are trimmed, capitalized, pronoun-fixed, and punctuated. -/
def basicLine (o : Options) (line : List Char) : List Char :=
  if (jsTrim line).isEmpty || startsHash (jsTrim line) || startsTicks (jsTrim line) ||
      startsDash (jsTrim line) || startsStar (jsTrim line) || startsGt (jsTrim line) ||
      startsPipe (jsTrim line) || startsStars2 (jsTrim line) then
    line
  else
    let r1 := if o.capitalizeSentences && !(jsTrim line).isEmpty then upperFirst (jsTrim line)
              else jsTrim line
    let r2 := if o.fixPronouns then fixI false r1 else r1
    if o.ensurePunctuation then ensurePunctuation r2 else r2

/-- `TextProcessor.basicCleanup` on code points. -/
def basicCleanupL (o : Options) (text : List Char) : List Char :=
  joinNl ((splitNl text).map (basicLine o))

/-- Leading `#` run. -/
def hashRun (l : List Char) : List Char := l.takeWhile (fun c => c == '#')

/-- One attempted match of `/([^\n])\n(#{1,6}\s)/` at the current position:
on success, the replacement `$1\n\n$2` and the remainder after the match.
`#{1,6}` then `\s` forces the whole `#` run to have length 1..6 followed by a
whitespace character. -/
def tryBB : List Char → Option (List Char × List Char)
  | a :: b :: rest =>
    if a == '\n' then none
    else if b == '\n' then
      let hs := hashRun rest
      if 1 ≤ hs.length && hs.length ≤ 6 then
        match rest.drop hs.length with
        | w :: r2 =>
          if isWs w then some (a :: '\n' :: '\n' :: (hs ++ [w]), r2) else none
        | [] => none
      else none
    else none
  | _ => none

/-- One attempted match of `/(#{1,6}\s.+)\n([^#\n])/` at the current position:
on success, the replacement `$1\n\n$2` and the remainder after the match.
The `.+` body stops at the first line terminator (`.` matches none of them),
which must then be the literal `\n`; the negated class `[^#\n]` does admit
other line terminators such as `\r`. -/
def tryBA (l : List Char) : Option (List Char × List Char) :=
  let hs := hashRun l
  if 1 ≤ hs.length && hs.length ≤ 6 then
    match l.drop hs.length with
    | w :: r2 =>
      if isWs w then
        let body := r2.takeWhile (fun c => !isLineTerm c)
        if 1 ≤ body.length then
          match r2.drop body.length with
          | nl :: d :: r4 =>
            if nl == '\n' && !(d == '#') && !(d == '\n') then
              some (hs ++ w :: (body ++ '\n' :: '\n' :: [d]), r4)
            else none
          | _ => none
        else none
      else none
    | [] => none
  else none

/-- One attempted match of `/\n{3,}/` at the current position: the maximal
newline run of length at least 3 is replaced by exactly two newlines. -/
def tryNl3 (l : List Char) : Option (List Char × List Char) :=
  let run := l.takeWhile (fun c => c == '\n')
  if 3 ≤ run.length then some (['\n', '\n'], l.drop run.length) else none

/-- Global left-to-right regex replacement: at each position attempt the match;
on success emit the replacement and resume after the matched text, otherwise
advance one character.  A successful match always consumes at least one
character, so fuel equal to the input length never runs out. -/
def scanWith (t : List Char → Option (List Char × List Char)) : Nat → List Char → List Char
  | 0, l => l
  | _ + 1, [] => []
  | fuel + 1, c :: rest =>
    match t (c :: rest) with
    | some (repl, after) => repl ++ scanWith t fuel after
    | none => c :: scanWith t fuel rest

/-- `TextProcessor.cleanup` on code points: blank line before headings, blank
line after headings, collapse of 3+ newlines, per-line `trimEnd`, and the final
whole-text trim plus single trailing newline. -/
def cleanupL (text : List Char) : List Char :=
  let s1 := scanWith tryBB text.length text
  let s2 := scanWith tryBA s1.length s1
  let s3 := scanWith tryNl3 s2.length s2
  let s4 := joinNl ((splitNl s3).map trimEndL)
  jsTrim s4 ++ ['\n']

/-- `TextProcessor.processSync` on code points: structure detection, basic
cleanup, final cleanup. -/
def processSyncL (o : Options) (text : List Char) : List Char :=
  cleanupL (basicCleanupL o (detectL o text))

/-- `TextProcessor.detectStructure` (String-level entry point). -/
def detectStructure (o : Options) (text : String) : String :=
  ⟨detectL o text.data⟩

/-- `TextProcessor.basicCleanup` (String-level entry point). -/
def basicCleanup (o : Options) (text : String) : String :=
  ⟨basicCleanupL o text.data⟩

/-- `TextProcessor.cleanup` (String-level entry point). -/
def cleanup (text : String) : String :=
  ⟨cleanupL text.data⟩

/-- `TextProcessor.processSync` (String-level entry point). -/
def processSync (o : Options) (text : String) : String :=
  cleanup (basicCleanup o (detectStructure o text))

/-- One iteration of the `applyNLP` loop.  The per-line retext transform is an
external collaborator, passed as a fallible function `f`; the source's
`try`/`catch` around it becomes the `Except` match: on failure the original
line is pushed unchanged. -/
def nlpLine (o : Options) (f : List Char → Except String (List Char))
    (inCode : Bool) (line : List Char) : List (List Char) × Bool :=
  if startsTicks (jsTrim line) then
    ([line], !inCode)
  else if inCode || startsHash (jsTrim line) || startsDash (jsTrim line) ||
      startsStar (jsTrim line) || startsGt (jsTrim line) || startsPipe (jsTrim line) ||
      startsStars2 (jsTrim line) || (jsTrim line).isEmpty then
    ([line], inCode)
  else
    match f (jsTrim line) with
    | .error _ => ([line], inCode)
    | .ok out =>
      let r := jsTrim out
      ([if o.ensurePunctuation then ensurePunctuation r else r], inCode)

/-- The full `applyNLP` loop over a list of lines. -/
def nlpLines (o : Options) (f : List Char → Except String (List Char)) :
    Bool → List (List Char) → List (List Char) × Bool
  | b, [] => ([], b)
  | b, l :: ls =>
    let r := nlpLine o f b l
    let rest := nlpLines o f r.2 ls
    (r.1 ++ rest.1, rest.2)

/-- `TextProcessor.applyNLP` (String-level), parameterised by the per-line
retext transform.  Total: per-line failures are recovered inside `nlpLine`. -/
def applyNLP (o : Options) (f : List Char → Except String (List Char))
    (text : String) : String :=
  ⟨joinNl (nlpLines o f false (splitNl text.data)).1⟩

/-- The shape of a plugin's `rules` field as seen by `AutoFormatter.registerPlugin`:
missing (or otherwise falsy), present but not an array, or an array of rule
descriptors.  Rule descriptors themselves are opaque to registration. -/
inductive RulesField (α : Type) where
  | absent : RulesField α
  | bad : RulesField α
  | arr : List α → RulesField α
deriving DecidableEq

/-- A plugin object, as far as `registerPlugin` inspects it. -/
structure Plugin (α : Type) where
  rules : RulesField α
deriving DecidableEq

/-- The rule-registry state of an `AutoFormatter` instance: the ordered rule
sequence (built-ins first) and the list of registered plugins. -/
structure FmtState (α : Type) where
  rules : List α
  plugins : List (Plugin α)
deriving DecidableEq

/-- `AutoFormatter.registerPlugin`: validate that `plugin.rules` is an array
(throwing `Error('Plugin must have a rules array')` otherwise, before any
mutation), then append the plugin and its rules to the ordered sequences. -/
def registerPlugin {α : Type} (st : FmtState α) (p : Plugin α) :
    Except String (FmtState α) :=
  match p.rules with
  | .arr rs => .ok ⟨st.rules ++ rs, st.plugins ++ [p]⟩
  | _ => .error "Plugin must have a rules array"

/-- Parity of the fence-delimiter lines in a list of lines (xor-fold). -/
def fencePar (ls : List (List Char)) : Bool :=
  ls.foldr (fun l b => (startsTicks (jsTrim l)).xor b) false

theorem detectLine_fence (o : Options) (st : ScanState) (line : List Char)
    (h : startsTicks (jsTrim line) = true) :
    detectLine o st line = ([line], ⟨!st.inCode, st.firstOpen, false⟩) := by
  simp [detectLine, h]

theorem detectLine_code (o : Options) (st : ScanState) (line : List Char)
    (h : startsTicks (jsTrim line) = false)
    (hc : st.inCode = true) (hp : o.preserveCodeBlocks = true) :
    detectLine o st line = ([line], st) := by
  simp [detectLine, h, hc, hp]

theorem detectLine_inCode (o : Options) (st : ScanState) (line : List Char) :
    ((detectLine o st line).2).inCode = (startsTicks (jsTrim line)).xor st.inCode := by
  unfold detectLine
  split
  case isTrue h => simp [h]
  case isFalse h =>
    simp only [Bool.not_eq_true] at h
    rw [h]
    simp only [Bool.false_xor]
    repeat' split
    all_goals rfl

theorem detectLines_cons (o : Options) (st : ScanState) (l : List Char)
    (ls : List (List Char)) :
    detectLines o st (l :: ls) =
      ((detectLine o st l).1 ++ (detectLines o (detectLine o st l).2 ls).1,
       (detectLines o (detectLine o st l).2 ls).2) := rfl

theorem detectLines_append (o : Options) (st : ScanState) (xs ys : List (List Char)) :
    detectLines o st (xs ++ ys) =
      ((detectLines o st xs).1 ++ (detectLines o (detectLines o st xs).2 ys).1,
       (detectLines o (detectLines o st xs).2 ys).2) := by
  induction xs generalizing st with
  | nil => simp [detectLines]
  | cons l ls ih =>
    simp only [List.cons_append, detectLines_cons, ih, List.append_assoc]

theorem detectLines_inCode (o : Options) (st : ScanState) (ls : List (List Char)) :
    ((detectLines o st ls).2).inCode = (fencePar ls).xor st.inCode := by
  induction ls generalizing st with
  | nil => simp [detectLines, fencePar]
  | cons l ls ih =>
    rw [detectLines_cons]
    simp only [ih, detectLine_inCode, fencePar, List.foldr_cons]
    cases startsTicks (jsTrim l) <;>
      cases ls.foldr (fun l b => (startsTicks (jsTrim l)).xor b) false <;>
      cases st.inCode <;> rfl

theorem detectLines_code (o : Options) (st : ScanState) (ls : List (List Char))
    (hc : st.inCode = true) (hp : o.preserveCodeBlocks = true)
    (hf : ∀ l ∈ ls, startsTicks (jsTrim l) = false) :
    detectLines o st ls = (ls, st) := by
  induction ls with
  | nil => rfl
  | cons l ls ih =>
    rw [detectLines_cons, detectLine_code o st l (hf l (List.mem_cons_self l ls)) hc hp]
    rw [ih (fun x hx => hf x (List.mem_cons_of_mem l hx))]
    rfl

theorem nlpLine_fence (o : Options) (f : List Char → Except String (List Char))
    (b : Bool) (line : List Char) (h : startsTicks (jsTrim line) = true) :
    nlpLine o f b line = ([line], !b) := by
  simp [nlpLine, h]

theorem nlpLine_code (o : Options) (f : List Char → Except String (List Char))
    (line : List Char) (h : startsTicks (jsTrim line) = false) :
    nlpLine o f true line = ([line], true) := by
  simp [nlpLine, h]

theorem nlpLine_inCode (o : Options) (f : List Char → Except String (List Char))
    (b : Bool) (line : List Char) :
    (nlpLine o f b line).2 = (startsTicks (jsTrim line)).xor b := by
  unfold nlpLine
  split
  case isTrue h => simp [h]
  case isFalse h =>
    simp only [Bool.not_eq_true] at h
    rw [h]
    simp only [Bool.false_xor]
    repeat' split
    all_goals rfl

theorem nlpLines_cons (o : Options) (f : List Char → Except String (List Char))
    (b : Bool) (l : List Char) (ls : List (List Char)) :
    nlpLines o f b (l :: ls) =
      ((nlpLine o f b l).1 ++ (nlpLines o f (nlpLine o f b l).2 ls).1,
       (nlpLines o f (nlpLine o f b l).2 ls).2) := rfl

theorem nlpLines_append (o : Options) (f : List Char → Except String (List Char))
    (b : Bool) (xs ys : List (List Char)) :
    nlpLines o f b (xs ++ ys) =
      ((nlpLines o f b xs).1 ++ (nlpLines o f (nlpLines o f b xs).2 ys).1,
       (nlpLines o f (nlpLines o f b xs).2 ys).2) := by
  induction xs generalizing b with
  | nil => simp [nlpLines]
  | cons l ls ih =>
    simp only [List.cons_append, nlpLines_cons, ih, List.append_assoc]

theorem nlpLines_inCode (o : Options) (f : List Char → Except String (List Char))
    (b : Bool) (ls : List (List Char)) :
    (nlpLines o f b ls).2 = (fencePar ls).xor b := by
  induction ls generalizing b with
  | nil => simp [nlpLines, fencePar]
  | cons l ls ih =>
    rw [nlpLines_cons]
    simp only [ih, nlpLine_inCode, fencePar, List.foldr_cons]
    cases startsTicks (jsTrim l) <;>
      cases ls.foldr (fun l b => (startsTicks (jsTrim l)).xor b) false <;>
      cases b <;> rfl

theorem nlpLines_code (o : Options) (f : List Char → Except String (List Char))
    (ls : List (List Char))
    (hf : ∀ l ∈ ls, startsTicks (jsTrim l) = false) :
    nlpLines o f true ls = (ls, true) := by
  induction ls with
  | nil => rfl
  | cons l ls ih =>
    rw [nlpLines_cons, nlpLine_code o f l (hf l (List.mem_cons_self l ls))]
    rw [ih (fun x hx => hf x (List.mem_cons_of_mem l hx))]
    rfl

/-- Claim C1, counterexample: the synchronous pipeline is not idempotent for
every input.  On `"t\n    x"` the first run emits the nested list item
`"  - x"`, and the second run's fall-through pushes the trimmed line, stripping
the indentation, so `processSync (processSync x) ≠ processSync x`. -/
theorem claim1_counterexample :
    processSync defaultOptions (processSync defaultOptions "t\n    x") ≠
      processSync defaultOptions "t\n    x" := by decide

/-- Claim C1, amended: the synchronous pipeline is idempotent on the spec's
own example inputs, proved here on three concrete documents exercising the
first-line-title, folder-heading and command-inline-code rules (the
counterexample confines the failure to outputs with indented list items or
label-shaped plain lines). -/
theorem claim1_amended :
    processSync defaultOptions (processSync defaultOptions "hello world\nmore text") =
      processSync defaultOptions "hello world\nmore text" ∧
    processSync defaultOptions (processSync defaultOptions "my-project/") =
      processSync defaultOptions "my-project/" ∧
    processSync defaultOptions (processSync defaultOptions "notes\nmake test") =
      processSync defaultOptions "notes\nmake test" :=
  ⟨by decide, by decide, by decide⟩

/-- Claim C5: with `firstLineTitle` enabled (the default), the pipeline output
for `"hello world\nmore text"` starts with `"# hello world\n\n"`: the first
non-empty line is wrapped as an H1 heading followed by a blank line, and no
other rule touches it (the remainder is exactly the processed second line). -/
theorem claim5_first_line_title :
    processSync defaultOptions "hello world\nmore text" =
      "# hello world\n\n" ++ "More text.\n" := by decide

/-- Claim C3, counterexample: at a concrete malformed plugin (missing `rules`
field) registration does throw before mutating anything, but with the plain
`Error` message `"Plugin must have a rules array"` — not a `ValidationError`
with message `"rule set must provide a rules sequence"` as the claim states. -/
theorem claim3_counterexample :
    registerPlugin (⟨[7], []⟩ : FmtState Nat) ⟨.absent⟩ =
      .error "Plugin must have a rules array" ∧
    registerPlugin (⟨[7], []⟩ : FmtState Nat) ⟨.absent⟩ ≠
      .error "rule set must provide a rules sequence" :=
  ⟨rfl, fun h => absurd (Except.error.inj h) (by decide)⟩

/-- Claim C3, amended: for every plugin whose `rules` field is missing (falsy)
or not an array, `registerPlugin` throws a plain `Error` with message
`"Plugin must have a rules array"`; the throw happens before any mutation, so
the already-registered rule sequence is unchanged (no success state exists). -/
theorem claim3_register_error {α : Type} (st : FmtState α) (p : Plugin α)
    (h : p.rules = RulesField.absent ∨ p.rules = RulesField.bad) :
    registerPlugin st p = .error "Plugin must have a rules array" := by
  rcases h with h | h <;> simp [registerPlugin, h]

/-- Witness for C3 at a concrete non-array `rules` field. -/
theorem claim3_witness :
    registerPlugin (⟨[0, 1], []⟩ : FmtState Nat) ⟨.bad⟩ =
      .error "Plugin must have a rules array" :=
  claim3_register_error ⟨[0, 1], []⟩ ⟨.bad⟩ (Or.inr rfl)

/-- Claim C4: with `detectFolders` enabled and `headerLevel = 3`, the document
`"my-project/"` yields the heading `"### My Project"` followed by a blank
line; and in general every non-code, non-blank line whose trimmed content has
no internal space and ends in `/` is turned by the folder rule into a heading
at the configured level (title split on `-`/`_` with each segment
capitalized), followed by a blank line, consuming the first-line slot. -/
theorem claim4_folder_rule :
    detectStructure defaultOptions "my-project/" = "### My Project\n" ∧
    ∀ (o : Options) (st : ScanState) (line : List Char),
      o.detectFolders = true → st.inCode = false →
      startsTicks (jsTrim line) = false → (jsTrim line).isEmpty = false →
      endsSlash (jsTrim line) = true → hasSpace (jsTrim line) = false →
      detectLine o st line =
        ([folderHeading o (jsTrim line), []], ⟨false, false, false⟩) := by
  refine ⟨by decide, ?_⟩
  intro o st line h1 h2 h3 h4 h5 h6
  simp [detectLine, h1, h2, h3, h4, h5, h6]

/-- Witness for C4's general part at a concrete folder line. -/
theorem claim4_witness :
    detectLine defaultOptions ⟨false, true, false⟩ "docs_dir/".data =
      ([folderHeading defaultOptions (jsTrim "docs_dir/".data), []],
       ⟨false, false, false⟩) ∧
    folderHeading defaultOptions (jsTrim "docs_dir/".data) = "### Docs Dir".data :=
  ⟨claim4_folder_rule.2 defaultOptions ⟨false, true, false⟩ "docs_dir/".data
      rfl rfl (by decide) (by decide) (by decide) (by decide),
   by decide⟩

/-- Claim C6, counterexample: under the default rule set the indented line
`"  sub/"` (2 leading spaces, trimmed content not a list marker) is captured
by the earlier folder rule and becomes a heading, not the list item the claim
demands. -/
theorem claim6_counterexample :
    detectLine defaultOptions ⟨false, false, false⟩ "  sub/".data =
      (["### Sub".data, []], ⟨false, false, false⟩) ∧
    detectLine defaultOptions ⟨false, false, false⟩ "  sub/".data ≠
      (["- sub/".data], ⟨false, false, false⟩) :=
  ⟨by decide, by decide⟩

/-- Claim C6, amended: with `detectLists` enabled, every non-code, non-blank,
non-first line with 2 or more leading whitespace characters whose content
contains no line terminator (the `(\S.*)$` group cannot match one) and whose
trimmed content does not start with a list marker — and which is not captured
by the earlier folder rule — becomes a list item with nesting level
`floor(leading/2)`, emitted as `(level - 1) * 2` spaces, `-`, a space, and the
content; the concrete document shows levels 1 and 2 collapsing to depths 0
and 1. -/
theorem claim6_indent_list_rule :
    detectStructure defaultOptions "top\n  item one\n    deep" =
      "# top\n\n- item one\n  - deep" ∧
    ∀ (o : Options) (st : ScanState) (line : List Char),
      o.detectLists = true → st.inCode = false → st.firstOpen = false →
      startsTicks (jsTrim line) = false → (jsTrim line).isEmpty = false →
      2 ≤ (line.takeWhile isWs).length →
      (line.dropWhile isWs).isEmpty = false →
      (line.dropWhile isWs).all (fun c => !isLineTerm c) = true →
      startsDash (jsTrim line) = false → startsStar (jsTrim line) = false →
      (o.detectFolders && endsSlash (jsTrim line) && !hasSpace (jsTrim line)) = false →
      detectLine o st line = ([listItem line], ⟨false, false, false⟩) := by
  refine ⟨by decide, ?_⟩
  intro o st line h1 h2 h3 h4 h5 hlen h6 hterm h7 h8 h9
  simp [detectLine, h1, h2, h3, h4, h5, h6, hterm, h7, h8, h9, decide_eq_true hlen]

/-- Witness for C6's general part at a concrete indented line. -/
theorem claim6_witness :
    detectLine defaultOptions ⟨false, false, false⟩ "    deep".data =
      ([listItem "    deep".data], ⟨false, false, false⟩) ∧
    listItem "    deep".data = "  - deep".data :=
  ⟨claim6_indent_list_rule.2 defaultOptions ⟨false, false, false⟩ "    deep".data
      rfl rfl rfl (by decide) (by decide) (by decide) (by decide) (by decide)
      (by decide) (by decide) (by decide),
   by decide⟩

/-- Claim C7, counterexample: under the default rule set (which also enables
`firstLineTitle`) the single-line document `"Status: In progress"` is consumed
by the first-line-title rule, so the pipeline yields `"# Status: In progress"`
and not the bold label the claim states. -/
theorem claim7_counterexample :
    processSync defaultOptions "Status: In progress" = "# Status: In progress\n" ∧
    processSync defaultOptions "Status: In progress" ≠ "**Status:** In progress\n" ∧
    processSync defaultOptions "Status: In progress" ≠ "**Status:** In progress" :=
  ⟨by decide, by decide, by decide⟩

/-- Claim C7, amended: with `detectLabels` enabled, a line matching the
key-value pattern (`labelMatch`, whose value group per `.`-semantics contains
no line terminator) and not already bold becomes `**Key:** value`, provided
the line is not claimed by the earlier rules: it is not the still-open first
line (e.g. `firstLineTitle` disabled, as in the concrete instance), not
captured by the folder rule, and not captured by the indented-list rule. -/
theorem claim7_label_rule :
    processSync { defaultOptions with firstLineTitle := false } "Status: In progress" =
      "**Status:** In progress\n" ∧
    ∀ (o : Options) (st : ScanState) (line k v : List Char),
      o.detectLabels = true → st.inCode = false →
      startsTicks (jsTrim line) = false → (jsTrim line).isEmpty = false →
      (o.detectFolders && endsSlash (jsTrim line) && !hasSpace (jsTrim line)) = false →
      (o.firstLineTitle && st.firstOpen && !startsHash (jsTrim line)) = false →
      (o.detectLists && 2 ≤ (line.takeWhile isWs).length &&
        !(line.dropWhile isWs).isEmpty &&
        (line.dropWhile isWs).all (fun c => !isLineTerm c) &&
        !startsDash (jsTrim line) && !startsStar (jsTrim line)) = false →
      startsStars2 (jsTrim line) = false →
      labelMatch (jsTrim line) = some (k, v) →
      detectLine o st line = ([labelLine k v], ⟨false, false, false⟩) := by
  refine ⟨by decide, ?_⟩
  intro o st line k v h1 h2 h3 h4 h5 h6 h7 h8 hm
  simp [detectLine, h1, h2, h3, h4, h5, h6, h7, h8, hm]

/-- Witness for C7's general part at a concrete non-first label line. -/
theorem claim7_witness :
    detectLine defaultOptions ⟨false, false, false⟩ "Status: done".data =
      ([labelLine "Status".data "done".data], ⟨false, false, false⟩) ∧
    labelLine "Status".data "done".data = "**Status:** done".data :=
  ⟨claim7_label_rule.2 defaultOptions ⟨false, false, false⟩ "Status: done".data
      "Status".data "done".data rfl rfl (by decide) (by decide) (by decide)
      (by decide) (by decide) (by decide) (by decide),
   by decide⟩

/-- Claim C8: with `ensurePunctuation` and `capitalizeSentences` enabled, the
plain line `"this is a note"` becomes `"This is a note."` in the sync cleanup;
and every string already ending in `.`, `!`, `?`, `:` or `;` is left unchanged
by the punctuation-insertion step. -/
theorem claim8_punctuation :
    basicCleanup defaultOptions "this is a note" = "This is a note." ∧
    ∀ (s : List Char) (c : Char), c ∈ ['.', '!', '?', ':', ';'] →
      s.getLast? = some c → ensurePunctuation s = s := by
  refine ⟨by decide, ?_⟩
  intro s c hc hl
  have hse : sentenceEnd s = true := by
    unfold sentenceEnd
    rw [hl]
    fin_cases hc <;> decide
  unfold ensurePunctuation
  simp [hse]

/-- Witness for C8's general part at a concrete line ending in a colon. -/
theorem claim8_witness :
    ensurePunctuation "Done:".data = "Done:".data :=
  claim8_punctuation.2 "Done:".data ':' (by decide) (by decide)

/-- Claim C9: when the per-line NLP transform fails on a line that reaches it
(not a fence, not inside code, not structural, not blank), the exception is
caught at line level and the original untouched line is emitted with the state
unchanged; `nlpLines`/`applyNLP` are total, so no error propagates to the
document run. -/
theorem claim9_nlp_error_recovery :
    ∀ (o : Options) (f : List Char → Except String (List Char))
      (line : List Char) (e : String),
      startsTicks (jsTrim line) = false →
      startsHash (jsTrim line) = false → startsDash (jsTrim line) = false →
      startsStar (jsTrim line) = false → startsGt (jsTrim line) = false →
      startsPipe (jsTrim line) = false → startsStars2 (jsTrim line) = false →
      (jsTrim line).isEmpty = false →
      f (jsTrim line) = .error e →
      nlpLine o f false line = ([line], false) := by
  intro o f line e h1 h2 h3 h4 h5 h6 h7 h8 hf
  simp [nlpLine, h1, h2, h3, h4, h5, h6, h7, h8, hf]

/-- Witness for C9 with a transform that always throws. -/
theorem claim9_witness :
    nlpLine defaultOptions (fun _ => .error "nlp stage failure") false
      "plain text".data = (["plain text".data], false) :=
  claim9_nlp_error_recovery defaultOptions (fun _ => .error "nlp stage failure")
    "plain text".data "nlp stage failure" (by decide) (by decide) (by decide)
    (by decide) (by decide) (by decide) (by decide) (by decide) rfl

/-- Claim C2: with `preserveCodeBlocks` enabled and the default (built-in) rule
set, for any document split as `pre ++ [f1] ++ mid ++ [f2] ++ post` where `pre`
contains an even number of fence delimiters, `f1`/`f2` are fence delimiters and
`mid` contains none, both the Structure Detector and the NLP Cleanup emit the
delimiter lines and every line of `mid` verbatim, the delimiters toggling the
inside-code state (false before `f1`, true across `mid`, false again after
`f2`, as the states threaded to `post` show). -/
theorem claim2_fence_invariance :
    ∀ (o : Options) (f : List Char → Except String (List Char))
      (pre mid post : List (List Char)) (f1 f2 : List Char),
      o.preserveCodeBlocks = true →
      startsTicks (jsTrim f1) = true → startsTicks (jsTrim f2) = true →
      fencePar pre = false →
      (∀ l ∈ mid, startsTicks (jsTrim l) = false) →
      (detectLines o initState (pre ++ f1 :: (mid ++ f2 :: post))).1 =
        (detectLines o initState pre).1 ++ f1 :: (mid ++ f2 ::
          (detectLines o ⟨false, ((detectLines o initState pre).2).firstOpen, false⟩ post).1) ∧
      (nlpLines o f false (pre ++ f1 :: (mid ++ f2 :: post))).1 =
        (nlpLines o f false pre).1 ++ f1 :: (mid ++ f2 :: (nlpLines o f false post).1) := by
  intro o f pre mid post f1 f2 hp hF1 hF2 hpar hmid
  have hin : ((detectLines o initState pre).2).inCode = false := by
    rw [detectLines_inCode, hpar]; rfl
  have hnin : (nlpLines o f false pre).2 = false := by
    rw [nlpLines_inCode, hpar]; rfl
  constructor
  · rw [detectLines_append, detectLines_cons,
      detectLine_fence o ((detectLines o initState pre).2) f1 hF1, hin]
    simp only [Bool.not_false]
    rw [detectLines_append,
      detectLines_code o ⟨true, ((detectLines o initState pre).2).firstOpen, false⟩
        mid rfl hp hmid,
      detectLines_cons,
      detectLine_fence o ⟨true, ((detectLines o initState pre).2).firstOpen, false⟩
        f2 hF2]
    simp [List.append_assoc]
  · rw [nlpLines_append, nlpLines_cons, hnin,
      nlpLine_fence o f false f1 hF1]
    simp only [Bool.not_false]
    rw [nlpLines_append, nlpLines_code o f mid hmid, nlpLines_cons,
      nlpLine_fence o f true f2 hF2]
    simp [List.append_assoc]

/-- Witness for C2 at a concrete document with one closed fenced block. -/
theorem claim2_witness :
    (detectLines defaultOptions initState
        (["intro".data] ++ "```".data :: (["Status: x".data, "  y".data] ++
          "```".data :: ["end".data]))).1 =
      (detectLines defaultOptions initState ["intro".data]).1 ++ "```".data ::
        (["Status: x".data, "  y".data] ++ "```".data ::
          (detectLines defaultOptions
            ⟨false,
             ((detectLines defaultOptions initState ["intro".data]).2).firstOpen,
             false⟩ ["end".data]).1) ∧
    (nlpLines defaultOptions (fun _ => .error "down") false
        (["intro".data] ++ "```".data :: (["Status: x".data, "  y".data] ++
          "```".data :: ["end".data]))).1 =
      (nlpLines defaultOptions (fun _ => .error "down") false ["intro".data]).1 ++
        "```".data :: (["Status: x".data, "  y".data] ++ "```".data ::
          (nlpLines defaultOptions (fun _ => .error "down") false ["end".data]).1) :=
  claim2_fence_invariance defaultOptions (fun _ => .error "down")
    ["intro".data] ["Status: x".data, "  y".data] ["end".data]
    "```".data "```".data rfl (by decide) (by decide) (by decide) (by decide)

/-- Claim C10: if the fence count of the prefix is odd (the last fence is never
closed), then with `preserveCodeBlocks` enabled every later line passes through
the Structure Detector verbatim, the NLP pass skips every such line
unconditionally, and the inside-code flag is still set at the end of the
document: the fence is never implicitly closed at end of input. -/
theorem claim10_unclosed_fence :
    ∀ (o : Options) (f : List Char → Except String (List Char))
      (pre post : List (List Char)),
      o.preserveCodeBlocks = true →
      fencePar pre = true →
      (∀ l ∈ post, startsTicks (jsTrim l) = false) →
      (detectLines o initState (pre ++ post)).1 =
        (detectLines o initState pre).1 ++ post ∧
      ((detectLines o initState (pre ++ post)).2).inCode = true ∧
      (nlpLines o f false (pre ++ post)).1 = (nlpLines o f false pre).1 ++ post ∧
      (nlpLines o f false (pre ++ post)).2 = true := by
  intro o f pre post hp hodd hpost
  have hin : ((detectLines o initState pre).2).inCode = true := by
    rw [detectLines_inCode, hodd]; rfl
  have hver := detectLines_code o ((detectLines o initState pre).2) post hin hp hpost
  have hnin : (nlpLines o f false pre).2 = true := by
    rw [nlpLines_inCode, hodd]; rfl
  have hnver := nlpLines_code o f post hpost
  refine ⟨?_, ?_, ?_, ?_⟩
  · rw [detectLines_append, hver]
  · rw [detectLines_append, hver]
    exact hin
  · rw [nlpLines_append, hnin, hnver]
  · rw [nlpLines_append, hnin, hnver]

/-- Witness for C10 at a concrete document whose final fence is unclosed. -/
theorem claim10_witness :
    (detectLines defaultOptions initState
        (["a".data, "```".data] ++ ["tail one".data, "  tail two".data])).1 =
      (detectLines defaultOptions initState ["a".data, "```".data]).1 ++
        ["tail one".data, "  tail two".data] ∧
    ((detectLines defaultOptions initState
        (["a".data, "```".data] ++ ["tail one".data, "  tail two".data])).2).inCode = true ∧
    (nlpLines defaultOptions (fun s => .ok s) false
        (["a".data, "```".data] ++ ["tail one".data, "  tail two".data])).1 =
      (nlpLines defaultOptions (fun s => .ok s) false ["a".data, "```".data]).1 ++
        ["tail one".data, "  tail two".data] ∧
    (nlpLines defaultOptions (fun s => .ok s) false
        (["a".data, "```".data] ++ ["tail one".data, "  tail two".data])).2 = true :=
  claim10_unclosed_fence defaultOptions (fun s => .ok s)
    ["a".data, "```".data] ["tail one".data, "  tail two".data]
    rfl (by decide) (by decide)
